import Mathlib

/-!
Verification of the document_parser repository: a shallow embedding of
`word_parser.py` (section segmentation of a block stream), `is_scanned_pdf.py`
(scanned-PDF heuristic) and `is_scanned_table.py` (scanned-table OCR heuristic),
together with theorems settling the specification's claims about them.

Library boundaries (file reading, the docx object model, PDF rendering, OCR)
are modelled as explicit inputs: a document is its ordered list of blocks, a
PDF is its list of pages with extracted text and image presence, and the OCR /
text-extraction results of a table region are the two extracted strings.
-/

namespace DocParser

/-- Characters treated as whitespace by Python's `str.strip()` (ASCII range). -/
def isPySpace (c : Char) : Bool :=
  c = ' ' || c = '\t' || c = '\n' || c = '\r' || c = '\x0b' || c = '\x0c'

/-- Python `s.strip()`: remove leading and trailing whitespace. -/
def pyStrip (s : String) : String :=
  ⟨((s.data.dropWhile isPySpace).reverse.dropWhile isPySpace).reverse⟩

/-- Python `s.rstrip("\n")`: remove trailing newline characters only. -/
def rstripNewlines (s : String) : String :=
  ⟨(s.data.reverse.dropWhile (· = '\n')).reverse⟩

/-- Python `s.lower()` (ASCII letters). -/
def pyLower (s : String) : String :=
  ⟨s.data.map Char.toLower⟩

/-- Python `s.startswith(t)`. -/
def pyStartsWith (s t : String) : Bool :=
  t.data.isPrefixOf s.data

/-- One step of Python `s.split(sep)` for a non-empty separator: scan left to
right, cutting at each non-overlapping occurrence of `sep`.  `fuel` bounds the
recursion (any value at least the length of the scanned list is enough). -/
def pySplitAux (sep : List Char) : Nat → List Char → List Char → List (List Char)
  | _, [], acc => [acc.reverse]
  | 0, rest, acc => [acc.reverse ++ rest]
  | fuel + 1, c :: rest, acc =>
    if sep.isPrefixOf (c :: rest) then
      acc.reverse :: pySplitAux sep fuel (List.drop sep.length (c :: rest)) []
    else
      pySplitAux sep fuel rest (c :: acc)

/-- Python `s.split(sep)` for a non-empty separator. -/
def pySplit (s sep : String) : List String :=
  (pySplitAux sep.data s.length s.data []).map (fun cs => ⟨cs⟩)

/-- Digit-run tail of Python `int()` parsing: after an initial digit with value
accumulated in `acc`, accept further digits, with single underscores allowed
only between digits. -/
def digitsAux : Nat → List Char → Option Nat
  | acc, [] => some acc
  | acc, c :: rest =>
    if c.isDigit then digitsAux (acc * 10 + (c.toNat - 48)) rest
    else if c = '_' then
      match rest with
      | [] => none
      | d :: rest2 =>
        if d.isDigit then digitsAux (acc * 10 + (d.toNat - 48)) rest2 else none
    else none

/-- Python `int(s)` on a string: strip whitespace, optional sign, then a
digit run (underscores permitted between digits); `none` when `int` raises. -/
def pyIntParse (s : String) : Option Int :=
  match (pyStrip s).data with
  | [] => none
  | '+' :: rest =>
    match rest with
    | [] => none
    | d :: rest2 =>
      if d.isDigit then (digitsAux (d.toNat - 48) rest2).map Int.ofNat else none
  | '-' :: rest =>
    match rest with
    | [] => none
    | d :: rest2 =>
      if d.isDigit then (digitsAux (d.toNat - 48) rest2).map (fun n => -(n : Int))
      else none
  | d :: rest =>
    if d.isDigit then (digitsAux (d.toNat - 48) rest).map Int.ofNat else none

/-- A block of the document stream: a paragraph (with its merged text, its
run texts, and an optional style name) or a table (with its raw cell matrix).
This is the data `iter_block_items` yields, viewed through the docx library
boundary. -/
inductive Block
  | para (text : String) (runs : List String) (style : Option String)
  | table (rows : List (List String))
deriving DecidableEq, Repr

/-- A content item of a section: `{"type": "paragraph", "text": ..,
"style": ..}` or `{"type": "table", "rows": ..}`. -/
inductive ContentItem
  | paragraph (text : String) (style : Option String)
  | table (rows : List (List String))
deriving DecidableEq, Repr

/-- The `Section` dataclass of `word_parser.py`. -/
structure Section where
  title : String
  level : Int
  content : List ContentItem
deriving DecidableEq, Repr

/-- `heading_level` of `word_parser.py`: return the heading level if the
style name, stripped and lowercased, starts with `"heading "` and the piece
of the split after that marker parses as a Python integer; `none` otherwise
(including a missing style object or an empty style name, both falsy). -/
def heading_level (style : Option String) : Option Int :=
  match style with
  | none => none
  | some sname =>
    if sname = "" then none
    else
      let name := pyLower (pyStrip sname)
      if pyStartsWith name "heading " then
        ((pySplit name "heading ").get? 1).bind pyIntParse
      else none

/-- `table_to_matrix` of `word_parser.py`: strip every cell's text. -/
def table_to_matrix (rows : List (List String)) : List (List String) :=
  rows.map (fun row => row.map pyStrip)

/-- `push_current_if_has_content` of `word_parser.py`: append the current
section to the output list only if it is not the untouched empty preamble. -/
def push_current_if_has_content (sections : List Section) (current : Section) :
    List Section :=
  if current.title ≠ "(preamble)" ∨ current.content ≠ [] then
    sections ++ [current]
  else sections

/-- The text a paragraph block resolves to, before the trailing-newline strip:
the merged text, or the concatenation of the run texts, per
`merge_paragraph_runs`. -/
def paraText (merge_paragraph_runs : Bool) (text : String) (runs : List String) :
    String :=
  if merge_paragraph_runs then text else String.join runs

/-- The block loop of `parse_docx_sections`: one pass over the block stream,
carrying the output list and the current section exactly as the Python
`for block in iter_block_items(doc)` loop does, then the final
`push_current_if_has_content()`. -/
def sectionLoop (include_tables include_empty_paragraphs merge_paragraph_runs : Bool)
    (sections : List Section) (current : Section) : List Block → List Section
  | [] => push_current_if_has_content sections current
  | Block.para ptext runs style :: rest =>
    let text := rstripNewlines (paraText merge_paragraph_runs ptext runs)
    match heading_level style with
    | some lvl =>
      sectionLoop include_tables include_empty_paragraphs merge_paragraph_runs
        (push_current_if_has_content sections current)
        { title := pyStrip text, level := lvl, content := [] } rest
    | none =>
      if include_empty_paragraphs = false ∧ pyStrip text = "" then
        sectionLoop include_tables include_empty_paragraphs merge_paragraph_runs
          sections current rest
      else
        sectionLoop include_tables include_empty_paragraphs merge_paragraph_runs
          sections
          { current with
              content := current.content ++ [ContentItem.paragraph (pyStrip text) style] }
          rest
  | Block.table rows :: rest =>
    if include_tables then
      sectionLoop include_tables include_empty_paragraphs merge_paragraph_runs
        sections
        { current with
            content := current.content ++ [ContentItem.table (table_to_matrix rows)] }
        rest
    else
      sectionLoop include_tables include_empty_paragraphs merge_paragraph_runs
        sections current rest

/-- `parse_docx_sections` of `word_parser.py`, over the block stream the
document yields (the `Document(path)` / `iter_block_items` library boundary). -/
def parse_docx_sections (blocks : List Block)
    (include_tables : Bool := true) (include_empty_paragraphs : Bool := false)
    (merge_paragraph_runs : Bool := true) : List Section :=
  sectionLoop include_tables include_empty_paragraphs merge_paragraph_runs
    [] { title := "(preamble)", level := 0, content := [] } blocks

/-- The content item a single block contributes, or `none` when the block is a
heading paragraph or is dropped by the configured filters.  Mirrors the three
branches of the loop body of `parse_docx_sections`. -/
def blockToContent (include_tables include_empty_paragraphs merge_paragraph_runs : Bool) :
    Block → Option ContentItem
  | Block.para ptext runs style =>
    let text := rstripNewlines (paraText merge_paragraph_runs ptext runs)
    match heading_level style with
    | some _ => none
    | none =>
      if include_empty_paragraphs = false ∧ pyStrip text = "" then none
      else some (ContentItem.paragraph (pyStrip text) style)
  | Block.table rows =>
    if include_tables then some (ContentItem.table (table_to_matrix rows)) else none

/-- Whether a block is a heading-styled paragraph (a paragraph whose style
resolves to a heading level). -/
def isHeadingBlock : Block → Bool
  | Block.para _ _ style => (heading_level style).isSome
  | Block.table _ => false

/-- Whether a block is a heading paragraph that would itself start a section
with level 0 and title `"(preamble)"` (trimmed heading text `"(preamble)"`,
resolved level 0), masquerading as the synthetic preamble. -/
def fakesPreamble (merge_paragraph_runs : Bool) : Block → Bool
  | Block.para ptext runs style =>
    match heading_level style with
    | some lvl =>
      (lvl == 0) &&
        (pyStrip (rstripNewlines (paraText merge_paragraph_runs ptext runs)) == "(preamble)")
    | none => false
  | Block.table _ => false

/-- Whether the head of a section list is the level-0 `"(preamble)"` section. -/
def firstIsPreamble : List Section → Bool
  | [] => false
  | s :: _ => (s.title == "(preamble)") && (s.level == 0)

/-- Usage string printed by the `__main__` entry of `word_parser.py`. -/
def usage_message : String := "Usage: python docx_sections.py <file.docx>"

/-- Observable outcome of the command-line entry point: either the usage
message together with the `SystemExit` code, or the list of sections printed
(serialized) to standard output. -/
inductive MainOutcome
  | usageExit (message : String) (code : Nat)
  | printSections (sections : List Section)
deriving DecidableEq, Repr

/-- The `__main__` block of `word_parser.py`: `docBlocks` is the library
boundary mapping a file path to the document's block stream.  With fewer than
two argv entries it prints the usage message and exits with status 2;
otherwise it prints the sections parsed from `sys.argv[1]` with the default
configuration. -/
def main_entry (docBlocks : String → List Block) (argv : List String) : MainOutcome :=
  if argv.length < 2 then MainOutcome.usageExit usage_message 2
  else MainOutcome.printSections (parse_docx_sections (docBlocks (argv.getD 1 "")))

/-! ## `is_scanned_pdf.py` -/

/-- A PDF page through the PyMuPDF boundary: the text `page.get_text("text")`
extracts, and the image list `page.get_images(full=True)` returns (only
emptiness is consulted). -/
structure PdfPage where
  text : String
  images : List Nat
deriving DecidableEq, Repr

/-- Total stripped text length over all pages, as accumulated by the loop of
`is_pdf_scanned`. -/
def totalTextChars (pages : List PdfPage) : Nat :=
  pages.foldl (fun acc p => acc + (pyStrip p.text).length) 0

/-- Whether any page of the document reports at least one image. -/
def hasAnyImage (pages : List PdfPage) : Bool :=
  pages.any (fun p => !p.images.isEmpty)

/-- `is_pdf_scanned` of `is_scanned_pdf.py`, over the page list the document
yields. -/
def is_pdf_scanned (pages : List PdfPage)
    (min_text_chars : Nat := 20) (require_images : Bool := true) : Bool :=
  if min_text_chars ≤ totalTextChars pages then false
  else if require_images then hasAnyImage pages
  else true

/-! ## `is_scanned_table.py` -/

/-- The result record of `detect_scanned_table_by_ocr` (the geometric `bbox`
pass-through is omitted; floats are modelled as rationals). -/
structure OCRTableScanResult where
  page_number : Nat
  pdf_text_chars : Nat
  ocr_text_chars : Nat
  scanned : Bool
  confidence : ℚ
deriving DecidableEq, Repr

/-- The ratio of line 51 of `is_scanned_table.py`:
`ocr_chars / max(1, pdf_chars)`. -/
def ocrRatio (pdf_chars ocr_chars : Nat) : ℚ :=
  (ocr_chars : ℚ) / ((max 1 pdf_chars : Nat) : ℚ)

/-- `detect_scanned_table_by_ocr` of `is_scanned_table.py`, over the two
strings the library boundary produces for the clipped region: `pdf_text`
(extracted PDF text) and `ocr_text` (OCR of the rendered image). -/
def detect_scanned_table_by_ocr (page_number : Nat) (pdf_text ocr_text : String)
    (ocr_min_ratio : ℚ := 5) (min_ocr_chars : Nat := 50) : OCRTableScanResult :=
  let pdf_chars := (pyStrip pdf_text).length
  let ocr_chars := (pyStrip ocr_text).length
  let ratio := ocrRatio pdf_chars ocr_chars
  { page_number := page_number
    pdf_text_chars := pdf_chars
    ocr_text_chars := ocr_chars
    scanned := decide (min_ocr_chars ≤ ocr_chars) && decide (ocr_min_ratio ≤ ratio)
    confidence := min 1 (ratio / (ocr_min_ratio * 2)) }

/-! ## Helper lemmas about the section loop -/

/-- Pushing a section adds exactly its content to the concatenated content:
a dropped section is the empty preamble, whose content is empty. -/
lemma push_flatMap_content (sections : List Section) (current : Section) :
    (push_current_if_has_content sections current).flatMap Section.content =
      sections.flatMap Section.content ++ current.content := by
  unfold push_current_if_has_content
  split
  · simp
  · rename_i h
    push_neg at h
    simp [h.2]

/-- The accumulated output list only grows by appending: pushing onto
`sections` is `sections` followed by pushing onto the empty list. -/
lemma push_append (sections : List Section) (current : Section) :
    push_current_if_has_content sections current =
      sections ++ push_current_if_has_content [] current := by
  unfold push_current_if_has_content
  split <;> simp

/-- The section loop only appends to the accumulated output list. -/
lemma sectionLoop_acc (it iep m : Bool) (blocks : List Block) :
    ∀ (sections : List Section) (current : Section),
      sectionLoop it iep m sections current blocks =
        sections ++ sectionLoop it iep m [] current blocks := by
  induction blocks with
  | nil =>
    intro sections current
    simp only [sectionLoop]
    exact push_append sections current
  | cons b rest ih =>
    intro sections current
    cases b with
    | para ptext runs style =>
      simp only [sectionLoop]
      cases heading_level style with
      | some lvl =>
        simp only
        rw [ih, ih (push_current_if_has_content [] current), push_append,
          List.append_assoc]
      | none =>
        simp only
        split
        · exact ih sections current
        · rw [ih, ih []]
    | table rows =>
      simp only [sectionLoop]
      split
      · rw [ih, ih []]
      · exact ih sections current

/-- Concatenated section content after the loop: the accumulated output's
content, the current section's content, then one content item per surviving
non-heading block of the remaining stream. -/
lemma sectionLoop_flatMap (it iep m : Bool) (blocks : List Block) :
    ∀ (sections : List Section) (current : Section),
      (sectionLoop it iep m sections current blocks).flatMap Section.content =
        sections.flatMap Section.content ++ current.content ++
          blocks.filterMap (blockToContent it iep m) := by
  induction blocks with
  | nil =>
    intro sections current
    simp [sectionLoop, push_flatMap_content]
  | cons b rest ih =>
    intro sections current
    cases b with
    | para ptext runs style =>
      simp only [sectionLoop, blockToContent, List.filterMap_cons]
      cases heading_level style with
      | some lvl =>
        simp only
        rw [ih, push_flatMap_content]
        simp
      | none =>
        simp only
        split
        · rw [ih]
        · rw [ih]
          simp
    | table rows =>
      simp only [sectionLoop, blockToContent, List.filterMap_cons]
      split
      · rw [ih]
        simp
      · rw [ih]

/-- On a stream without heading paragraphs the loop never closes a section:
it just extends the current one with the surviving blocks and finalizes it. -/
lemma sectionLoop_no_heading (it iep m : Bool) (blocks : List Block) :
    ∀ (sections : List Section) (current : Section),
      (∀ b ∈ blocks, isHeadingBlock b = false) →
      sectionLoop it iep m sections current blocks =
        push_current_if_has_content sections
          { current with
              content := current.content ++ blocks.filterMap (blockToContent it iep m) } := by
  induction blocks with
  | nil =>
    intro sections current _
    simp [sectionLoop]
  | cons b rest ih =>
    intro sections current hnh
    have hb : isHeadingBlock b = false := hnh b (List.mem_cons_self b rest)
    have hrest : ∀ b ∈ rest, isHeadingBlock b = false :=
      fun b hb => hnh b (List.mem_cons_of_mem _ hb)
    cases b with
    | para ptext runs style =>
      have hstyle : heading_level style = none := by
        cases h : heading_level style with
        | none => rfl
        | some lvl => simp [isHeadingBlock, h] at hb
      simp only [sectionLoop, blockToContent, List.filterMap_cons, hstyle]
      split
      · rw [ih sections current hrest]
      · rw [ih sections _ hrest]
        simp
    | table rows =>
      simp only [sectionLoop, blockToContent, List.filterMap_cons]
      split
      · rw [ih sections _ hrest]
        simp
      · rw [ih sections current hrest]

/-! ## Claim theorems for the section segmenter -/

/-- Claim C1: for every input block stream and every configuration,
concatenating the content lists of the sections returned by
`parse_docx_sections`, in output order, yields exactly the original sequence
of non-heading blocks after filtering (tables dropped when `include_tables`
is false, trimmed-empty paragraphs dropped when `include_empty_paragraphs` is
false), in the original order with no reordering, duplication, or loss. -/
theorem claim_C1_sections_concat_filtered
    (include_tables include_empty_paragraphs merge_paragraph_runs : Bool)
    (blocks : List Block) :
    (parse_docx_sections blocks include_tables include_empty_paragraphs
        merge_paragraph_runs).flatMap Section.content =
      blocks.filterMap
        (blockToContent include_tables include_empty_paragraphs merge_paragraph_runs) := by
  unfold parse_docx_sections
  rw [sectionLoop_flatMap]
  simp

/-- Claim C5: for every input block stream containing zero heading-styled
paragraphs, `parse_docx_sections` returns exactly one section with title
`"(preamble)"` and level 0 containing all blocks that survive filtering, or
returns the empty list when every block is filtered away. -/
theorem claim_C5_no_headings
    (include_tables include_empty_paragraphs merge_paragraph_runs : Bool)
    (blocks : List Block)
    (hnh : ∀ b ∈ blocks, isHeadingBlock b = false) :
    parse_docx_sections blocks include_tables include_empty_paragraphs
        merge_paragraph_runs =
      if blocks.filterMap
            (blockToContent include_tables include_empty_paragraphs
              merge_paragraph_runs) = [] then
        []
      else
        [{ title := "(preamble)", level := 0,
           content := blocks.filterMap
             (blockToContent include_tables include_empty_paragraphs
               merge_paragraph_runs) }] := by
  unfold parse_docx_sections
  rw [sectionLoop_no_heading _ _ _ blocks [] _ hnh]
  unfold push_current_if_has_content
  simp only [List.nil_append]
  split
  · rename_i h
    rcases h with h | h
    · simp at h
    · simp only [ne_eq] at h
      rw [if_neg h]
  · rename_i h
    push_neg at h
    rw [if_pos h.2]

/-- Witness for C5 at a concrete heading-free stream. -/
theorem claim_C5_witness :
    parse_docx_sections
        [Block.para "a" [] none, Block.para " " [] none, Block.table [["x"]]]
        true false true =
      if ([Block.para "a" [] none, Block.para " " [] none,
            Block.table [["x"]]].filterMap (blockToContent true false true)) = [] then
        []
      else
        [{ title := "(preamble)", level := 0,
           content := [Block.para "a" [] none, Block.para " " [] none,
             Block.table [["x"]]].filterMap (blockToContent true false true) }] :=
  claim_C5_no_headings true false true
    [Block.para "a" [] none, Block.para " " [] none, Block.table [["x"]]]
    (by decide)

/-- If no block of the remaining stream fakes the preamble and the current
section is not a level-0 `"(preamble)"` section, then the first section the
loop emits is not the level-0 preamble. -/
lemma sectionLoop_first_not_preamble (it iep m : Bool) (blocks : List Block) :
    ∀ (current : Section),
      (∀ b ∈ blocks, fakesPreamble m b = false) →
      (current.title ≠ "(preamble)" ∨ current.level ≠ 0) →
      firstIsPreamble (sectionLoop it iep m [] current blocks) = false := by
  induction blocks with
  | nil =>
    intro current _ hcur
    simp only [sectionLoop]
    unfold push_current_if_has_content
    split
    · rcases hcur with h | h <;> simp [firstIsPreamble, h]
    · simp [firstIsPreamble]
  | cons b rest ih =>
    intro current hfake hcur
    have hb := hfake b (List.mem_cons_self b rest)
    have hrest : ∀ b ∈ rest, fakesPreamble m b = false :=
      fun b hb => hfake b (List.mem_cons_of_mem _ hb)
    cases b with
    | para ptext runs style =>
      simp only [sectionLoop]
      cases hsty : heading_level style with
      | some lvl =>
        simp only
        have hnew :
            (Section.mk (pyStrip (rstripNewlines (paraText m ptext runs))) lvl []).title ≠
                  "(preamble)" ∨
              (Section.mk (pyStrip (rstripNewlines (paraText m ptext runs))) lvl []).level ≠ 0 := by
          simp only [fakesPreamble, hsty] at hb
          rcases Bool.and_eq_false_iff.mp hb with h | h
          · right
            simpa using beq_eq_false_iff_ne.mp h
          · left
            simpa using beq_eq_false_iff_ne.mp h
        rw [sectionLoop_acc, push_append, List.nil_append]
        unfold push_current_if_has_content
        split
        · rcases hcur with h | h <;> simp [firstIsPreamble, h]
        · simp only [List.nil_append]
          exact ih _ hrest hnew
      | none =>
        simp only
        split
        · exact ih current hrest hcur
        · exact ih _ hrest hcur
    | table rows =>
      simp only [sectionLoop]
      split
      · exact ih _ hrest hcur
      · exact ih current hrest hcur

/-- Running the loop from a preamble-shaped current section (empty output so
far): the first emitted section is the level-0 preamble exactly when the
current content is non-empty or some block before the first heading survives
the filters, provided no heading fakes the preamble. -/
lemma sectionLoop_preamble_iff (it iep m : Bool) (blocks : List Block) :
    ∀ (content : List ContentItem),
      (∀ b ∈ blocks, fakesPreamble m b = false) →
      (firstIsPreamble
          (sectionLoop it iep m [] (Section.mk "(preamble)" 0 content) blocks) = true ↔
        (content ≠ [] ∨
          (blocks.takeWhile (fun b => !isHeadingBlock b)).any
              (fun b => (blockToContent it iep m b).isSome) = true)) := by
  induction blocks with
  | nil =>
    intro content _
    simp only [sectionLoop, List.takeWhile_nil, List.any_nil]
    unfold push_current_if_has_content
    split
    · rename_i h
      rcases h with h | h
      · simp at h
      · simp [firstIsPreamble, h]
    · rename_i h
      push_neg at h
      have h2 : content = [] := h.2
      simp [firstIsPreamble, h2]
  | cons b rest ih =>
    intro content hfake
    have hb := hfake b (List.mem_cons_self b rest)
    have hrest : ∀ b ∈ rest, fakesPreamble m b = false :=
      fun b hb => hfake b (List.mem_cons_of_mem _ hb)
    cases b with
    | para ptext runs style =>
      cases hsty : heading_level style with
      | some lvl =>
        have hhead : isHeadingBlock (Block.para ptext runs style) = true := by
          simp [isHeadingBlock, hsty]
        simp only [sectionLoop, hsty, List.takeWhile_cons, hhead, Bool.not_true,
          Bool.false_eq_true, if_false, List.any_nil]
        have hnew :
            (Section.mk (pyStrip (rstripNewlines (paraText m ptext runs))) lvl []).title ≠
                  "(preamble)" ∨
              (Section.mk (pyStrip (rstripNewlines (paraText m ptext runs))) lvl []).level ≠ 0 := by
          simp only [fakesPreamble, hsty] at hb
          rcases Bool.and_eq_false_iff.mp hb with h | h
          · right
            simpa using beq_eq_false_iff_ne.mp h
          · left
            simpa using beq_eq_false_iff_ne.mp h
        rw [sectionLoop_acc, push_append, List.nil_append]
        unfold push_current_if_has_content
        split
        · rename_i h
          rcases h with h | h
          · simp at h
          · simp only [List.nil_append, List.singleton_append]
            simp [firstIsPreamble, h]
        · rename_i h
          push_neg at h
          have h2 : content = [] := h.2
          simp only [List.nil_append]
          rw [sectionLoop_first_not_preamble it iep m rest _ hrest hnew]
          simp [h2]
      | none =>
        have hhead : isHeadingBlock (Block.para ptext runs style) = false := by
          simp [isHeadingBlock, hsty]
        simp only [sectionLoop, hsty, List.takeWhile_cons, hhead, Bool.not_false,
          if_true, List.any_cons]
        split
        · rename_i hskip
          have hbc : blockToContent it iep m (Block.para ptext runs style) = none := by
            simp only [blockToContent, hsty]
            rw [if_pos hskip]
          rw [ih content hrest]
          simp [hbc]
        · rename_i hskip
          have hbc :
              blockToContent it iep m (Block.para ptext runs style) =
                some (ContentItem.paragraph
                  (pyStrip (rstripNewlines (paraText m ptext runs))) style) := by
            simp only [blockToContent, hsty]
            rw [if_neg hskip]
          rw [ih _ hrest]
          simp [hbc]
    | table rows =>
      have hhead : isHeadingBlock (Block.table rows) = false := rfl
      simp only [sectionLoop, List.takeWhile_cons, hhead, Bool.not_false, if_true,
        List.any_cons]
      split
      · rename_i hinc
        have hbc :
            blockToContent it iep m (Block.table rows) =
              some (ContentItem.table (table_to_matrix rows)) := by
          simp [blockToContent, hinc]
        rw [ih _ hrest]
        simp [hbc]
      · rename_i hinc
        have hbc : blockToContent it iep m (Block.table rows) = none := by
          simp only [blockToContent]
          rw [if_neg hinc]
        rw [ih content hrest]
        simp [hbc]

/-- Claim C2, counterexample: a table precedes the first heading (so a
non-heading block precedes it), yet with `include_tables = false` the table is
filtered out and no level-0 `"(preamble)"` section is emitted — the claim's
"this holds even when every such preceding block is filtered out" fails. -/
theorem claim_C2_counterexample :
    0 < (([Block.table [["a"]], Block.para "T" [] (some "Heading 1")].takeWhile
            (fun b => !isHeadingBlock b)).length) ∧
      firstIsPreamble
          (parse_docx_sections
            [Block.table [["a"]], Block.para "T" [] (some "Heading 1")]
            false false true) = false := by
  decide

/-- Claim C2 as amended: the first section of the output has level 0 and title
`"(preamble)"` if and only if at least one non-heading block that SURVIVES the
filtering (tables kept, non-empty trimmed text, per the configuration)
precedes the first heading-styled paragraph — provided no heading paragraph
itself resolves to level 0 with trimmed text `"(preamble)"`. -/
theorem claim_C2_amended
    (include_tables include_empty_paragraphs merge_paragraph_runs : Bool)
    (blocks : List Block)
    (hfake : ∀ b ∈ blocks, fakesPreamble merge_paragraph_runs b = false) :
    firstIsPreamble
        (parse_docx_sections blocks include_tables include_empty_paragraphs
          merge_paragraph_runs) = true ↔
      (blocks.takeWhile (fun b => !isHeadingBlock b)).any
          (fun b =>
            (blockToContent include_tables include_empty_paragraphs
                merge_paragraph_runs b).isSome) = true := by
  unfold parse_docx_sections
  rw [sectionLoop_preamble_iff _ _ _ blocks [] hfake]
  simp

/-- Witness for the amended C2 at a concrete stream with a surviving
pre-heading paragraph. -/
theorem claim_C2_amended_witness :
    firstIsPreamble
        (parse_docx_sections
          [Block.para "x" [] none, Block.para "T" [] (some "Heading 1")]
          true false true) = true ↔
      ([Block.para "x" [] none, Block.para "T" [] (some "Heading 1")].takeWhile
          (fun b => !isHeadingBlock b)).any
          (fun b => (blockToContent true false true b).isSome) = true :=
  claim_C2_amended true false true
    [Block.para "x" [] none, Block.para "T" [] (some "Heading 1")]
    (by decide)

/-- Claim C3: the code violates the claim — a style name `"Heading -1"` is
accepted by `heading_level` (Python `int` parses the signed suffix) and
produces a section whose level is the negative number `-1`. -/
theorem claim_C3_negative_level_bug :
    parse_docx_sections [Block.para "T" [] (some "Heading -1")] true false true =
        [{ title := "T", level := -1, content := [] }] ∧
      (parse_docx_sections [Block.para "T" [] (some "Heading -1")]
            true false true).any (fun s => decide (s.level < 0)) = true := by
  decide

/-- Claim C4, counterexample: the style name `"Heading 3Heading 4"` starts
with the heading marker and its full suffix `"3heading 4"` is not an integer,
yet `heading_level` resolves level 3 — Python splits on every occurrence of
`"heading "` and parses only the piece before the next occurrence. -/
theorem claim_C4_counterexample :
    pyStartsWith (pyLower (pyStrip "Heading 3Heading 4")) "heading " = true ∧
      (pyLower (pyStrip "Heading 3Heading 4")).drop 8 = "3heading 4" ∧
      pyIntParse "3heading 4" = none ∧
      heading_level (some "Heading 3Heading 4") = some 3 := by
  decide

/-- Claim C4 as amended: `"Heading 3"` resolves to level 3; `"Heading"` (no
number), `"heading abc"`, a missing style and any style name not starting
with `"heading "` (after strip and lowercase) resolve to no level; and any
name for which the piece of the `"heading "`-split at index 1 (the text up to
the next occurrence of the marker) is not a Python integer resolves to no
level.  (The full suffix being a non-integer is not enough, as the
counterexample shows.) -/
theorem claim_C4_amended :
    heading_level (some "Heading 3") = some 3 ∧
      heading_level (some "Heading") = none ∧
      heading_level (some "heading abc") = none ∧
      heading_level none = none ∧
      (∀ s : String,
        pyStartsWith (pyLower (pyStrip s)) "heading " = false →
        heading_level (some s) = none) ∧
      (∀ s t : String,
        (pySplit (pyLower (pyStrip s)) "heading ").get? 1 = some t →
        pyIntParse t = none →
        heading_level (some s) = none) := by
  refine ⟨by decide, by decide, by decide, rfl, ?_, ?_⟩
  · intro s hs
    unfold heading_level
    by_cases hempty : s = ""
    · simp [hempty]
    · simp [hempty, hs]
  · intro s t hget hint
    unfold heading_level
    by_cases hempty : s = ""
    · simp [hempty]
    · simp only [hempty, if_false]
      by_cases hsw : pyStartsWith (pyLower (pyStrip s)) "heading " = true
      · simp only [hsw, if_true]
        rw [hget, Option.some_bind]
        exact hint
      · simp [hsw]

/-- Witness for the amended C4 at a concrete non-heading style name. -/
theorem claim_C4_amended_witness :
    heading_level (some "Body Text") = none :=
  claim_C4_amended.2.2.2.2.1 "Body Text" (by decide)

/-- Claim C6: the concrete scenario of the specification — a preamble
paragraph, a level-1 heading, a body paragraph and a table — parses to
exactly the two stated sections. -/
theorem claim_C6_scenario :
    parse_docx_sections
        [Block.para "Hello" [] none, Block.para "Title A" [] (some "Heading 1"),
         Block.para "body" [] none, Block.table [["a", "b"]]]
        true false true =
      [{ title := "(preamble)", level := 0,
         content := [ContentItem.paragraph "Hello" none] },
       { title := "Title A", level := 1,
         content := [ContentItem.paragraph "body" none,
                     ContentItem.table [["a", "b"]]] }] := by
  decide

/-! ## Claim theorems for the two detectors and the CLI -/

/-- Claim C7: in `detect_scanned_table_by_ocr`, fewer OCR characters than
`min_ocr_chars` forces `scanned = false` regardless of the ratio; at least
`min_ocr_chars` OCR characters together with a ratio at least `ocr_min_ratio`
force `scanned = true`; and the confidence `min(1, ratio/(ocr_min_ratio*2))`
never exceeds 1. -/
theorem claim_C7_ocr_decision (page_number : Nat) (pdf_text ocr_text : String)
    (ocr_min_ratio : ℚ) (min_ocr_chars : Nat) :
    ((pyStrip ocr_text).length < min_ocr_chars →
      (detect_scanned_table_by_ocr page_number pdf_text ocr_text ocr_min_ratio
          min_ocr_chars).scanned = false) ∧
    (min_ocr_chars ≤ (pyStrip ocr_text).length →
      ocr_min_ratio ≤ ocrRatio (pyStrip pdf_text).length (pyStrip ocr_text).length →
      (detect_scanned_table_by_ocr page_number pdf_text ocr_text ocr_min_ratio
          min_ocr_chars).scanned = true) ∧
    (detect_scanned_table_by_ocr page_number pdf_text ocr_text ocr_min_ratio
        min_ocr_chars).confidence ≤ 1 := by
  refine ⟨?_, ?_, ?_⟩
  · intro h
    simp [detect_scanned_table_by_ocr, Nat.not_le.mpr h]
  · intro h1 h2
    simp [detect_scanned_table_by_ocr, h1, h2]
  · simp only [detect_scanned_table_by_ocr]
    exact min_le_left _ _

/-- Witness for C7: too few OCR characters give `scanned = false`; fifty OCR
characters against an empty PDF extraction give `scanned = true`. -/
theorem claim_C7_witness :
    (detect_scanned_table_by_ocr 0 "x" "" 5 50).scanned = false ∧
      (detect_scanned_table_by_ocr 0 ""
          "aaaaaaaaaaaaaaaaaaaaaaaaaaaaaaaaaaaaaaaaaaaaaaaaaa" 5 50).scanned = true :=
  ⟨(claim_C7_ocr_decision 0 "x" "" 5 50).1 (by decide),
   (claim_C7_ocr_decision 0 ""
        "aaaaaaaaaaaaaaaaaaaaaaaaaaaaaaaaaaaaaaaaaaaaaaaaaa" 5 50).2.1
      (by decide)
      (by
        rw [show (pyStrip "").length = 0 from by decide,
          show (pyStrip "aaaaaaaaaaaaaaaaaaaaaaaaaaaaaaaaaaaaaaaaaaaaaaaaaa").length = 50
            from by decide]
        norm_num [ocrRatio])⟩

/-- Claim C8: in `is_pdf_scanned`, a total stripped text length of at least
`min_text_chars` forces the result `false` regardless of images; below the
threshold with `require_images = true` the result equals whether any page has
at least one image. -/
theorem claim_C8_pdf_scanned (pages : List PdfPage) (min_text_chars : Nat)
    (require_images : Bool) :
    (min_text_chars ≤ totalTextChars pages →
      is_pdf_scanned pages min_text_chars require_images = false) ∧
    (totalTextChars pages < min_text_chars → require_images = true →
      is_pdf_scanned pages min_text_chars require_images = hasAnyImage pages) := by
  constructor
  · intro h
    simp [is_pdf_scanned, h]
  · intro h1 h2
    simp [is_pdf_scanned, Nat.not_le.mpr h1, h2]

/-- Witness for C8: a one-page document with no text and one image. -/
theorem claim_C8_witness :
    is_pdf_scanned [PdfPage.mk "" [1]] 20 true = hasAnyImage [PdfPage.mk "" [1]] :=
  (claim_C8_pdf_scanned [PdfPage.mk "" [1]] 20 true).2 (by decide) rfl

/-- Claim C9: the command-line entry point prints the usage message and
exits with status 2 exactly when no file-path argument is given; with a path
argument it prints the sections parsed with the default configuration; and
every usage exit carries exactly that message and status 2 (no other exit
codes). -/
theorem claim_C9_cli (docBlocks : String → List Block) (argv : List String) :
    (argv.length < 2 →
      main_entry docBlocks argv = MainOutcome.usageExit usage_message 2) ∧
    (2 ≤ argv.length →
      main_entry docBlocks argv =
        MainOutcome.printSections (parse_docx_sections (docBlocks (argv.getD 1 "")))) ∧
    (∀ msg code, main_entry docBlocks argv = MainOutcome.usageExit msg code →
      msg = usage_message ∧ code = 2) := by
  refine ⟨?_, ?_, ?_⟩
  · intro h
    simp [main_entry, h]
  · intro h
    simp [main_entry, Nat.not_lt.mpr h]
  · intro msg code h
    unfold main_entry at h
    split at h
    · injection h with h1 h2
      exact ⟨h1.symm, h2.symm⟩
    · exact MainOutcome.noConfusion h

/-- Witness for C9: invoking with only the program name. -/
theorem claim_C9_witness :
    main_entry (fun _ => []) ["prog"] = MainOutcome.usageExit usage_message 2 :=
  (claim_C9_cli (fun _ => []) ["prog"]).1 (by decide)

/-- Claim C10: the ratio of `detect_scanned_table_by_ocr` is
`ocr_chars / max(1, pdf_chars)`: its denominator is strictly positive for
every input (so the decision step never divides by zero), the division is
exact against that denominator, and at `pdf_chars = 0` the ratio is just
`ocr_chars`. -/
theorem claim_C10_ratio_denominator (pdf_chars ocr_chars : Nat) :
    (0 : ℚ) < ((max 1 pdf_chars : Nat) : ℚ) ∧
      ocrRatio pdf_chars ocr_chars * ((max 1 pdf_chars : Nat) : ℚ) =
        (ocr_chars : ℚ) ∧
      ocrRatio 0 ocr_chars = (ocr_chars : ℚ) := by
  have hpos : (0 : ℚ) < ((max 1 pdf_chars : Nat) : ℚ) := by
    have h1 : 0 < max 1 pdf_chars := lt_of_lt_of_le Nat.one_pos (le_max_left 1 pdf_chars)
    exact_mod_cast h1
  refine ⟨hpos, ?_, ?_⟩
  · unfold ocrRatio
    rw [div_mul_cancel₀ _ (ne_of_gt hpos)]
  · norm_num [ocrRatio]

end DocParser
